import Mathlib

/-!
Verification of the capture-to-encode pipeline of `cosmic-ext-rdp-server`.

Shallow embedding of:
- `crates/rdp-capture/src/frame.rs` (`DamageRect`, `PixelFormat`, `CapturedFrame`)
- `crates/rdp-capture/src/pipewire_stream.rs` (`PwError`, `process_frame`,
  `run_pipewire_loop`, `PwStream::start`)
- `crates/rdp-capture/src/portal.rs` (`PortalError`, `start_screencast`)
- `crates/rdp-encode/src/bitmap.rs` (`BitmapEncoder`)

Machine integers (`u32`, `u64`, `usize`, `i32`) are modelled as `Nat`/`Int`;
all chunk metadata values originate from `u32` fields, so no arithmetic in the
embedded code paths can overflow and no explicit `% 2^w` is needed.  Bytes are
modelled as `Nat` values.  Fallible native calls are modelled by environments
recording the outcome of each call, and the embedded functions are total Lean
functions (so "does not panic" is expressed by totality together with the
absence of any out-of-bounds access in the produced data).
-/

namespace Rdp

/-- `DamageRect` from `frame.rs`: axis-aligned integer rectangle. -/
structure DamageRect where
  x : Int
  y : Int
  width : Nat
  height : Nat
deriving DecidableEq, Repr

/-- `DamageRect::new` from `frame.rs`. -/
def DamageRect.new (x y : Int) (width height : Nat) : DamageRect :=
  ⟨x, y, width, height⟩

/-- `DamageRect::full_frame` from `frame.rs`. -/
def DamageRect.full_frame (width height : Nat) : DamageRect :=
  DamageRect.new 0 0 width height

/-- `DamageRect::area` from `frame.rs` (`u64` product of the `u32` fields,
which cannot wrap, so plain `Nat` multiplication is faithful). -/
def DamageRect.area (r : DamageRect) : Nat :=
  r.width * r.height

/-- `PixelFormat` from `frame.rs`. -/
inductive PixelFormat where
  | Bgra
  | Rgba
deriving DecidableEq, Repr

/-- `PixelFormat::bytes_per_pixel` from `frame.rs`. -/
def PixelFormat.bytes_per_pixel : PixelFormat → Nat
  | .Bgra => 4
  | .Rgba => 4

/-- `CapturedFrame` from `frame.rs`. -/
structure CapturedFrame where
  data : List Nat
  width : Nat
  height : Nat
  format : PixelFormat
  stride : Nat
  sequence : Nat
  damage : Option (List DamageRect)
deriving DecidableEq, Repr

/-- The in-place loop body of `CapturedFrame::ensure_alpha_opaque`
(`for chunk in self.data.chunks_exact_mut(4) { chunk[3] = 0xFF; }`):
every complete 4-byte chunk has its last byte set to `0xFF`; a trailing
partial chunk is left untouched, exactly as `chunks_exact_mut` does. -/
def setAlphaChunks : List Nat → List Nat
  | b0 :: b1 :: b2 :: _ :: rest => b0 :: b1 :: b2 :: 0xFF :: setAlphaChunks rest
  | l => l

/-- `CapturedFrame::ensure_alpha_opaque` from `frame.rs`: mutation modelled
as returning the updated frame. -/
def ensure_alpha_opaque (f : CapturedFrame) : CapturedFrame :=
  if f.format = PixelFormat.Bgra then
    { f with data := setAlphaChunks f.data }
  else
    f

/-- `BitmapEncoder` from `bitmap.rs`: the raw-bitmap pass-through encoder.
Its entire state is the tracked geometry. -/
structure BitmapEncoder where
  width : Nat
  height : Nat
deriving DecidableEq, Repr

/-- `BitmapEncoder::new` from `bitmap.rs`. -/
def BitmapEncoder.new (width height : Nat) : BitmapEncoder :=
  ⟨width, height⟩

/-- `BitmapEncoder::resize` from `bitmap.rs`. The accessors
`BitmapEncoder::width` / `BitmapEncoder::height` are the structure
projections. -/
def BitmapEncoder.resize (e : BitmapEncoder) (width height : Nat) : BitmapEncoder :=
  { e with width := width, height := height }

/-- Modelled from the spec: `CursorInfo` (cursor metadata: position, hotspot,
optional bitmap payload; spec section 4.3) is declared in a crate file of this
repository that is not included under `src/`.  Only its role as an opaque
channel-event payload matters here, since `extract_cursor` never produces one. -/
structure CursorInfo where
  x : Int
  y : Int
deriving DecidableEq, Repr

/-- Modelled from the spec: `CaptureEvent`, the channel event type
("frame-or-frame-plus-cursor events", spec section 6), constructed in
`pipewire_stream.rs` but declared in a crate file not included under `src/`. -/
inductive CaptureEvent where
  | Frame (frame : CapturedFrame)
  | FrameAndCursor (frame : CapturedFrame) (cursor : CursorInfo)
deriving DecidableEq, Repr

/-- `extract_damage` from `pipewire_stream.rs`: always returns `None`. -/
def extract_damage : Option (List DamageRect) :=
  none

/-- `extract_cursor` from `pipewire_stream.rs`: always returns `None`. -/
def extract_cursor : Option CursorInfo :=
  none

/-- One dequeued PipeWire buffer as `process_frame` observes it:
`datasEmpty` models `buffer.datas_mut().is_empty()`; `stride`, `offset` and
`size` are the chunk metadata (`u32` values, modelled as `Nat`); `data` is the
optionally mapped byte slice (`data.data()`). -/
structure PwBuffer where
  datasEmpty : Bool
  stride : Nat
  offset : Nat
  size : Nat
  data : Option (List Nat)
deriving DecidableEq, Repr

/-- The state shared between the capture thread and the channel: the `seq`
atomic counter and the queued, not-yet-received events of the bounded channel. -/
structure PwState where
  seq : Nat
  queue : List CaptureEvent
deriving DecidableEq, Repr

/-- `tokio::sync::mpsc::Sender::try_send` on a bounded channel of capacity
`cap`: enqueues when the channel holds fewer than `cap` unread events,
otherwise fails and leaves the queue untouched (never blocks). -/
def trySend (cap : Nat) (ev : CaptureEvent) (q : List CaptureEvent) : List CaptureEvent :=
  if q.length < cap then q ++ [ev] else q

/-- `process_frame` from `pipewire_stream.rs`.  The input is the result of
`stream.dequeue_buffer()`; the first component of the result is the updated
shared state, the second is the `CapturedFrame` constructed during this
callback (`some` even when `try_send` drops it), exposed so that theorems can
speak about constructed frames.  Every early `return` of the source maps to
`(st, none)`. -/
def process_frame (cap : Nat) (dequeued : Option PwBuffer) (st : PwState) :
    PwState × Option CapturedFrame :=
  match dequeued with
  | none => (st, none)
  | some b =>
    if b.datasEmpty then (st, none)
    else
      match b.data with
      | none => (st, none)
      | some slice =>
        if b.size = 0 ∨ b.stride = 0 then (st, none)
        else
          let bpp := 4
          let width := b.stride / bpp
          let height := if b.stride > 0 then b.size / b.stride else 0
          if width = 0 ∨ height = 0 then (st, none)
          else
            let endPos := b.offset + b.size
            if endPos > slice.length then (st, none)
            else
              let frame_data := (slice.drop b.offset).take b.size
              let sequence := st.seq
              let damage := extract_damage
              let cursor := extract_cursor
              let frame : CapturedFrame :=
                { data := frame_data, width := width, height := height,
                  format := PixelFormat.Bgra, stride := b.stride,
                  sequence := sequence, damage := damage }
              let ev := match cursor with
                | some cursorInfo => CaptureEvent.FrameAndCursor frame cursorInfo
                | none => CaptureEvent.Frame frame
              (⟨st.seq + 1, trySend cap ev st.queue⟩, some frame)

/-- The run phase of the capture loop: each event-loop iteration invokes the
`process` callback on at most one dequeued buffer.  Returns the final shared
state and the list of `CapturedFrame`s constructed along the way (sent or
dropped). -/
def runBuffers (cap : Nat) (bufs : List (Option PwBuffer)) (st : PwState) :
    PwState × List CapturedFrame :=
  match bufs with
  | [] => (st, [])
  | b :: rest =>
    let r := process_frame cap b st
    let restR := runBuffers cap rest r.1
    (restR.1, r.2.toList ++ restR.2)

/-- `PwError` from `pipewire_stream.rs`.  The source discards the payload of
every native failure (`map_err(|_| ...)`) except the spawn error. -/
inductive PwError where
  | MainLoop
  | Context
  | ConnectFd
  | CreateStream
  | RegisterListener
  | StreamConnect
  | SpawnThread (source : Nat)
deriving DecidableEq, Repr

/-- Outcomes of the fallible native calls made by `run_pipewire_loop`, in
source order: `MainLoop::new`, `Context::new`, `context.connect_fd`,
`Stream::new`, `listener.register`, `stream.connect`. -/
structure PwEnv where
  mainLoopOk : Bool
  contextOk : Bool
  connectFdOk : Bool
  createStreamOk : Bool
  registerListenerOk : Bool
  streamConnectOk : Bool
deriving DecidableEq, Repr

/-- `run_pipewire_loop` from `pipewire_stream.rs`: the body of the capture thread.
Each initialization step that fails short-circuits with its distinct
`PwError`; when all succeed, the loop iterates over the delivered buffers
starting from `seq = 0` and an empty channel, and returns `Ok` with the final
shared state. -/
def run_pipewire_loop (env : PwEnv) (cap : Nat) (bufs : List (Option PwBuffer)) :
    Except PwError PwState :=
  if ¬env.mainLoopOk then .error .MainLoop
  else if ¬env.contextOk then .error .Context
  else if ¬env.connectFdOk then .error .ConnectFd
  else if ¬env.createStreamOk then .error .CreateStream
  else if ¬env.registerListenerOk then .error .RegisterListener
  else if ¬env.streamConnectOk then .error .StreamConnect
  else .ok (runBuffers cap bufs ⟨0, []⟩).1

/-- `PwStream::start` from `pipewire_stream.rs`.  `spawn` is the outcome of
`std::thread::Builder::spawn` (its `io::Error` payload modelled as `Nat`).
On a successful spawn, `start` returns `Ok` immediately; the value carried
here is everything the returned receiver will ever yield.  A failure inside
`run_pipewire_loop` is only logged on the capture thread (the sender is
dropped, so the receiver yields nothing); it is never surfaced through
the return value of `start`. -/
def PwStream.start (spawn : Except Nat Unit) (env : PwEnv) (channel_capacity : Nat)
    (bufs : List (Option PwBuffer)) : Except PwError (List CaptureEvent) :=
  match spawn with
  | .error e => .error (.SpawnThread e)
  | .ok _ =>
    .ok (match run_pipewire_loop env channel_capacity bufs with
         | .ok st => st.queue
         | .error _ => [])

/-- `ashpd::Error` as this code observes it: the portal reports user
cancellation through the response error; everything else is opaque. -/
inductive AshpdError where
  | cancelled
  | other (code : Nat)
deriving DecidableEq, Repr

/-- `PortalError` from `portal.rs`. -/
inductive PortalError where
  | Create (source : AshpdError)
  | Session (source : AshpdError)
  | SelectSources (source : AshpdError)
  | Start (source : AshpdError)
  | Response (source : AshpdError)
  | NoStreams
  | PipeWireRemote (source : AshpdError)
deriving DecidableEq, Repr

/-- `PortalStream` from `portal.rs`. -/
structure PortalStream where
  node_id : Nat
  width : Option Int
  height : Option Int
deriving DecidableEq, Repr

/-- The successful payload of `request.response()`: the stream list and the
optional restore token. -/
structure StartResponse where
  streams : List PortalStream
  restore_token : Option String
deriving DecidableEq, Repr

/-- `PortalSession` from `portal.rs` (the `session`, `proxy` and
`pipewire_fd` native handles carry no observable structure; the descriptor is
modelled as a `Nat`). -/
structure PortalSession where
  streams : List PortalStream
  restore_token : Option String
  pipewire_fd : Nat
deriving DecidableEq, Repr

/-- Outcomes of the fallible portal calls made by `start_screencast`, in
source order.  `response` is the combined outcome of the `.response()` call
on the result of the start request: user cancellation surfaces there as
`.error .cancelled`. -/
structure PortalEnv where
  create : Except AshpdError Unit
  create_session : Except AshpdError Unit
  select_sources : Except AshpdError Unit
  start : Except AshpdError Unit
  response : Except AshpdError StartResponse
  open_pipe_wire_remote : Except AshpdError Nat
deriving Repr

/-- `start_screencast` from `portal.rs`: failure of each step maps to its
distinct `PortalError`; an empty stream list maps to `NoStreams`. -/
def start_screencast (env : PortalEnv) : Except PortalError PortalSession :=
  match env.create with
  | .error e => .error (.Create e)
  | .ok _ =>
    match env.create_session with
    | .error e => .error (.Session e)
    | .ok _ =>
      match env.select_sources with
      | .error e => .error (.SelectSources e)
      | .ok _ =>
        match env.start with
        | .error e => .error (.Start e)
        | .ok _ =>
          match env.response with
          | .error e => .error (.Response e)
          | .ok response =>
            let streams := response.streams
            if streams.isEmpty then .error .NoStreams
            else
              let restore_token := response.restore_token
              match env.open_pipe_wire_remote with
              | .error e => .error (.PipeWireRemote e)
              | .ok fd => .ok ⟨streams, restore_token, fd⟩

/-- The frame value built by the accepting branch of `process_frame` from a
buffer `b`, its mapped slice, and the sequence number read from the counter. -/
def mkFrame (b : PwBuffer) (slice : List Nat) (sequence : Nat) : CapturedFrame :=
  { data := (slice.drop b.offset).take b.size,
    width := b.stride / 4,
    height := b.size / b.stride,
    format := PixelFormat.Bgra,
    stride := b.stride,
    sequence := sequence,
    damage := none }

/-- A small accepted buffer for concrete witnesses: stride 8, size 8,
offset 0, an 8-byte slice (derived dimensions 2 × 1). -/
def tinySlice : List Nat :=
  [1, 2, 3, 4, 5, 6, 7, 8]

/-- A concrete buffer built on `tinySlice`. -/
def tinyBuffer : PwBuffer :=
  ⟨false, 8, 0, 8, some tinySlice⟩

/-- The frame `process_frame` constructs from `tinyBuffer` at `seq = 0`. -/
def tinyFrame : CapturedFrame :=
  ⟨tinySlice, 2, 1, PixelFormat.Bgra, 8, 0, none⟩

/-- A concrete two-pixel BGRA frame for witnesses. -/
def bgraFrame : CapturedFrame :=
  ⟨[10, 20, 30, 40, 50, 60, 70, 80], 2, 1, PixelFormat.Bgra, 8, 0, none⟩

/-- A concrete one-pixel RGBA frame for witnesses. -/
def rgbaFrame : CapturedFrame :=
  ⟨[10, 20, 30, 40], 1, 1, PixelFormat.Rgba, 4, 0, none⟩

/-- A degenerate buffer with `stride = 0`. -/
def zeroStrideBuffer : PwBuffer :=
  ⟨false, 0, 0, 8, some tinySlice⟩

/-- A buffer whose chunk metadata overruns the mapped slice
(`offset + size = 9 > 8`). -/
def oobBuffer : PwBuffer :=
  ⟨false, 8, 1, 8, some tinySlice⟩

/-- A buffer whose derived width is zero (`stride 2 / 4 = 0`). -/
def thinBuffer : PwBuffer :=
  ⟨false, 2, 0, 8, some tinySlice⟩

/-- The scenario buffer of spec section 8: stride 7680, size `7680 * 1080`,
offset 0, over a given slice. -/
def scenarioBuffer (slice : List Nat) : PwBuffer :=
  ⟨false, 7680, 0, 7680 * 1080, some slice⟩

/-- Environment in which creating the PipeWire `MainLoop` fails and every
other step succeeds. -/
def envMainLoopFail : PwEnv :=
  ⟨false, true, true, true, true, true⟩

/-- Environment in which creating the PipeWire `Context` fails and every
other step succeeds. -/
def envContextFail : PwEnv :=
  ⟨true, false, true, true, true, true⟩

/-- Portal environment in which the `proxy.start` call itself fails. -/
def envStartCallFail : PortalEnv :=
  ⟨.ok (), .ok (), .ok (), .error (.other 3), .ok ⟨[], none⟩, .ok 0⟩

/-- Portal environment in which the user cancels the consent dialog. -/
def envUserCancel : PortalEnv :=
  ⟨.ok (), .ok (), .ok (), .ok (), .error .cancelled, .ok 0⟩

/-- Pointwise description of `setAlphaChunks`: the byte at index `i` is
forced to `0xFF` exactly when `i % 4 = 3` (a complete-chunk alpha position)
and is unchanged otherwise; indices past the end stay absent.  An index of a
trailing partial chunk never satisfies `i % 4 = 3`, which is why the equation
needs no divisibility hypothesis on the length. -/
theorem setAlphaChunks_getElem? :
    ∀ (l : List Nat) (i : Nat),
      (setAlphaChunks l)[i]? =
        (l[i]?).map (fun b => if i % 4 = 3 then (0xFF : Nat) else b)
  | [], i => by simp [setAlphaChunks]
  | [b0], i => by
    match i with
    | 0 => simp [setAlphaChunks]
    | n + 1 => simp [setAlphaChunks]
  | [b0, b1], i => by
    match i with
    | 0 => simp [setAlphaChunks]
    | 1 => simp [setAlphaChunks]
    | n + 2 => simp [setAlphaChunks]
  | [b0, b1, b2], i => by
    match i with
    | 0 => simp [setAlphaChunks]
    | 1 => simp [setAlphaChunks]
    | 2 => simp [setAlphaChunks]
    | n + 3 => simp [setAlphaChunks]
  | b0 :: b1 :: b2 :: b3 :: rest, i => by
    match i with
    | 0 => simp [setAlphaChunks]
    | 1 => simp [setAlphaChunks]
    | 2 => simp [setAlphaChunks]
    | 3 => simp [setAlphaChunks]
    | n + 4 =>
      have ih := setAlphaChunks_getElem? rest n
      simp only [setAlphaChunks, List.getElem?_cons_succ, ih]
      have hm : (n + 4) % 4 = n % 4 := Nat.add_mod_right n 4
      rw [hm]

/-- Complete case analysis of one `process_frame` invocation: either the
buffer is rejected and the shared state is returned untouched with no frame,
or every guard passed and the result is exactly the constructed frame
(sequence read from the counter, counter advanced once, event offered to the
channel by `trySend`). -/
theorem process_frame_shape (cap : Nat) (ob : Option PwBuffer) (st : PwState) :
    process_frame cap ob st = (st, none) ∨
    ∃ b slice,
      ob = some b ∧ b.data = some slice ∧ b.datasEmpty = false ∧
      b.size ≠ 0 ∧ b.stride ≠ 0 ∧ b.stride / 4 ≠ 0 ∧ b.size / b.stride ≠ 0 ∧
      b.offset + b.size ≤ slice.length ∧
      process_frame cap ob st =
        (⟨st.seq + 1, trySend cap (CaptureEvent.Frame (mkFrame b slice st.seq)) st.queue⟩,
         some (mkFrame b slice st.seq)) := by
  match ob with
  | none => exact Or.inl rfl
  | some b =>
    cases hde : b.datasEmpty with
    | true => exact Or.inl (by simp [process_frame, hde])
    | false =>
      cases hdat : b.data with
      | none => exact Or.inl (by simp [process_frame, hde, hdat])
      | some slice =>
        by_cases h0 : b.size = 0 ∨ b.stride = 0
        · exact Or.inl (by simp [process_frame, hde, hdat, h0])
        · have hstr : b.stride ≠ 0 := fun hc => h0 (Or.inr hc)
          have hsz : b.size ≠ 0 := fun hc => h0 (Or.inl hc)
          have hpos : 0 < b.stride := Nat.pos_of_ne_zero hstr
          by_cases h1 : b.stride / 4 = 0 ∨ b.size / b.stride = 0
          · exact Or.inl (by simp [process_frame, hde, hdat, h0, hpos, h1])
          · by_cases h2 : b.offset + b.size > slice.length
            · exact Or.inl (by simp [process_frame, hde, hdat, h0, hpos, h1, h2])
            · refine Or.inr ⟨b, slice, rfl, hdat, hde, hsz, hstr,
                fun hc => h1 (Or.inl hc), fun hc => h1 (Or.inr hc),
                Nat.le_of_not_lt h2, ?_⟩
              simp [process_frame, hde, hdat, h0, hpos, h1, h2, mkFrame,
                extract_damage, extract_cursor]

/-- The accepting branch of `process_frame` in equational form: when every
guard holds, the result is exactly the constructed frame together with the
advanced counter and the `trySend` attempt. -/
theorem process_frame_accepts (cap : Nat) (b : PwBuffer) (st : PwState) (slice : List Nat)
    (hde : b.datasEmpty = false) (hdat : b.data = some slice)
    (hsz : b.size ≠ 0) (hstr : b.stride ≠ 0)
    (hw : b.stride / 4 ≠ 0) (hh : b.size / b.stride ≠ 0)
    (hle : b.offset + b.size ≤ slice.length) :
    process_frame cap (some b) st =
      (⟨st.seq + 1, trySend cap (CaptureEvent.Frame (mkFrame b slice st.seq)) st.queue⟩,
       some (mkFrame b slice st.seq)) := by
  have hpos : 0 < b.stride := Nat.pos_of_ne_zero hstr
  have h0 : ¬(b.size = 0 ∨ b.stride = 0) := by
    rintro (hc | hc)
    · exact hsz hc
    · exact hstr hc
  have h1 : ¬(b.stride / 4 = 0 ∨ b.size / b.stride = 0) := by
    rintro (hc | hc)
    · exact hw hc
    · exact hh hc
  have h2 : ¬(b.offset + b.size > slice.length) := Nat.not_lt.mpr hle
  simp [process_frame, hde, hdat, h0, hpos, h1, h2, mkFrame,
    extract_damage, extract_cursor]

/-- Claim C3: for every buffer whose chunk metadata has `stride = 0` or
`size = 0`, `process_frame` produces no frame, sends nothing, and leaves the
shared state — in particular the sequence counter — untouched, so the run
continues exactly as if the degenerate buffer had never arrived. -/
theorem c3_degenerate_buffer_dropped (cap : Nat) (b : PwBuffer) (st : PwState)
    (h : b.stride = 0 ∨ b.size = 0) :
    process_frame cap (some b) st = (st, none) ∧
    ∀ rest, runBuffers cap (some b :: rest) st = runBuffers cap rest st := by
  have hmain : process_frame cap (some b) st = (st, none) := by
    rcases process_frame_shape cap (some b) st with hL |
      ⟨b2, slice, hob, _, _, hsz, hstr, _, _, _, _⟩
    · exact hL
    · injection hob with hb
      subst hb
      rcases h with h | h
      · exact absurd h hstr
      · exact absurd h hsz
  refine ⟨hmain, fun rest => ?_⟩
  simp [runBuffers, hmain]

/-- Witness for C3 at the concrete zero-stride buffer. -/
theorem c3_witness :
    (zeroStrideBuffer.stride = 0 ∨ zeroStrideBuffer.size = 0) ∧
    process_frame 4 (some zeroStrideBuffer) ⟨0, []⟩ = (⟨0, []⟩, none) := by
  have h := c3_degenerate_buffer_dropped 4 zeroStrideBuffer ⟨0, []⟩ (Or.inl rfl)
  exact ⟨Or.inl rfl, h.1⟩

/-- Claim C4: a buffer whose chunk metadata satisfies
`offset + size > slice length` is dropped — no frame is produced and the
state is unchanged (the embedded function is total, so there is no panic);
moreover any frame that is produced copies exactly the in-bounds byte range
`[offset, offset + size)` of the slice, so no byte outside the slice is ever
read. -/
theorem c4_out_of_bounds_rejected (cap : Nat) (b : PwBuffer) (st : PwState)
    (slice : List Nat) (hdata : b.data = some slice) :
    (b.offset + b.size > slice.length → process_frame cap (some b) st = (st, none)) ∧
    (∀ f, (process_frame cap (some b) st).2 = some f →
      b.offset + b.size ≤ slice.length ∧
      f.data = (slice.drop b.offset).take b.size) := by
  constructor
  · intro hoob
    rcases process_frame_shape cap (some b) st with hL |
      ⟨b2, slice2, hob, hdat2, _, _, _, _, _, hle, _⟩
    · exact hL
    · injection hob with hb
      subst hb
      rw [hdata] at hdat2
      injection hdat2 with hs
      subst hs
      exact absurd hle (Nat.not_le_of_lt hoob)
  · intro f hf
    rcases process_frame_shape cap (some b) st with hL |
      ⟨b2, slice2, hob, hdat2, _, _, _, _, _, hle, heq⟩
    · rw [hL] at hf
      exact absurd hf (by simp)
    · injection hob with hb
      subst hb
      rw [hdata] at hdat2
      injection hdat2 with hs
      subst hs
      rw [heq] at hf
      simp only [Option.some.injEq] at hf
      subst hf
      exact ⟨hle, rfl⟩

/-- Witness for C4 at the concrete out-of-bounds buffer
(`offset 1 + size 8 > slice length 8`). -/
theorem c4_witness :
    oobBuffer.offset + oobBuffer.size > tinySlice.length ∧
    process_frame 4 (some oobBuffer) ⟨0, []⟩ = (⟨0, []⟩, none) := by
  have h := c4_out_of_bounds_rejected 4 oobBuffer ⟨0, []⟩ tinySlice rfl
  exact ⟨by decide, h.1 (by decide)⟩

/-- Claim C5: the send into the bounded channel is non-blocking; whenever the
channel already holds at least `capacity` unread events, `process_frame`
leaves the channel contents unchanged (the newly produced frame is dropped)
and, being a total function, returns to the caller instead of blocking. -/
theorem c5_full_channel_drops (cap : Nat) (ob : Option PwBuffer) (st : PwState)
    (hfull : cap ≤ st.queue.length) :
    ((process_frame cap ob st).1).queue = st.queue := by
  rcases process_frame_shape cap ob st with hL |
    ⟨b, slice, _, _, _, _, _, _, _, _, heq⟩
  · rw [hL]
  · rw [heq]
    simp [trySend, Nat.not_lt.mpr hfull]

/-- Witness for C5: a capacity-1 channel already holding one unread frame; a
second frame is produced (`isSome`) yet the channel contents are unchanged. -/
theorem c5_witness :
    ((process_frame 1 (some tinyBuffer) ⟨0, [CaptureEvent.Frame tinyFrame]⟩).1).queue
        = [CaptureEvent.Frame tinyFrame] ∧
    ((process_frame 1 (some tinyBuffer) ⟨0, [CaptureEvent.Frame tinyFrame]⟩).2).isSome
        = true := by
  refine ⟨c5_full_channel_drops 1 (some tinyBuffer)
    ⟨0, [CaptureEvent.Frame tinyFrame]⟩ (by decide), by decide⟩

/-- Claim C6: on a frame tagged with the packed-BGR format,
`ensure_alpha_opaque` sets the byte at every index `i` with `i % 4 = 3` (the
alpha byte of each 4-byte pixel) to `0xFF` and leaves every other byte
unchanged; on a frame tagged with the packed-RGB format it changes nothing. -/
theorem c6_ensure_alpha (f : CapturedFrame) (i : Nat) :
    (f.format = PixelFormat.Bgra →
      ( ensure_alpha_opaque f).data[i]? =
        (f.data[i]?).map (fun b => if i % 4 = 3 then (0xFF : Nat) else b)) ∧
    (f.format = PixelFormat.Rgba → ensure_alpha_opaque f = f) := by
  constructor
  · intro h
    simp [ ensure_alpha_opaque, h, setAlphaChunks_getElem?]
  · intro h
    simp [ ensure_alpha_opaque, h]

/-- Witness for C6 at concrete BGRA and RGBA frames: the alpha byte of the
first pixel is forced to `0xFF`, a color byte is untouched, and the RGBA
frame is returned unchanged. -/
theorem c6_witness :
    ( ensure_alpha_opaque bgraFrame).data[3]? = some 0xFF ∧
    ( ensure_alpha_opaque bgraFrame).data[2]? = some 30 ∧
    ensure_alpha_opaque rgbaFrame = rgbaFrame := by
  refine ⟨?_, ?_, (c6_ensure_alpha rgbaFrame 0).2 rfl⟩
  · have h := (c6_ensure_alpha bgraFrame 3).1 rfl
    rw [h]
    decide
  · have h := (c6_ensure_alpha bgraFrame 2).1 rfl
    rw [h]
    decide

/-- Claim C9: `BitmapEncoder::resize` is an idempotent setter: after
`resize w h` the accessors return `w` and `h`, applying it twice equals
applying it once, and the result is exactly the encoder whose whole state is
the pair `(w, h)` — there is no other encoder state and no frame held that a
resize could alter. -/
theorem c9_resize_idempotent_setter (e : BitmapEncoder) (w h : Nat) :
    (e.resize w h).width = w ∧ (e.resize w h).height = h ∧
    (e.resize w h).resize w h = e.resize w h ∧
    e.resize w h = BitmapEncoder.new w h :=
  ⟨rfl, rfl, rfl, rfl⟩

/-- Claim C10: every frame constructed by `process_frame` carries the
packed-BGR tag `PixelFormat.Bgra`; the function takes no negotiated-format
input at all, so the RGBA tag can never be produced by the capture loop and
the alpha-normalization step applies to every captured frame. -/
theorem c10_format_always_bgra (cap : Nat) (ob : Option PwBuffer) (st : PwState)
    (f : CapturedFrame) (h : (process_frame cap ob st).2 = some f) :
    f.format = PixelFormat.Bgra := by
  rcases process_frame_shape cap ob st with hL |
    ⟨b, slice, _, _, _, _, _, _, _, _, heq⟩
  · rw [hL] at h
    exact absurd h (by simp)
  · rw [heq] at h
    simp only [Option.some.injEq] at h
    subst h
    rfl

/-- Witness for C10 at the concrete tiny buffer. -/
theorem c10_witness : tinyFrame.format = PixelFormat.Bgra :=
  c10_format_always_bgra 4 (some tinyBuffer) ⟨0, []⟩ tinyFrame (by decide)

/-- Claim C7: the width of a produced frame is `stride / 4` and its height is
`size / stride`; a buffer either derived dimension of which is zero is
rejected without touching the state; and the end-to-end scenario of spec section 8 —
three deliveries with stride 7680 and size `7680 * 1080` over a matching
slice — yields exactly three frames of width 1920, height 1080 and
sequences 0, 1, 2. -/
theorem c7_derived_dimensions :
    (∀ (cap : Nat) (b : PwBuffer) (st : PwState) (f : CapturedFrame),
      (process_frame cap (some b) st).2 = some f →
      f.width = b.stride / 4 ∧ f.height = b.size / b.stride) ∧
    (∀ (cap : Nat) (b : PwBuffer) (st : PwState),
      b.stride / 4 = 0 ∨ b.size / b.stride = 0 →
      process_frame cap (some b) st = (st, none)) ∧
    (∀ slice : List Nat, slice.length = 7680 * 1080 →
      ((runBuffers 4 [some (scenarioBuffer slice), some (scenarioBuffer slice),
          some (scenarioBuffer slice)] ⟨0, []⟩).2).map
        (fun f => (f.width, f.height, f.sequence)) =
      [(1920, 1080, 0), (1920, 1080, 1), (1920, 1080, 2)]) := by
  refine ⟨?_, ?_, ?_⟩
  · intro cap b st f hf
    rcases process_frame_shape cap (some b) st with hL |
      ⟨b2, slice, hob, _, _, _, _, _, _, _, heq⟩
    · rw [hL] at hf
      exact absurd hf (by simp)
    · injection hob with hb
      subst hb
      rw [heq] at hf
      simp only [Option.some.injEq] at hf
      subst hf
      exact ⟨rfl, rfl⟩
  · intro cap b st hdim
    rcases process_frame_shape cap (some b) st with hL |
      ⟨b2, slice, hob, _, _, _, _, hw, hh, _, _⟩
    · exact hL
    · injection hob with hb
      subst hb
      rcases hdim with hdim | hdim
      · exact absurd hdim hw
      · exact absurd hdim hh
  · intro slice hlen
    have hacc : ∀ st : PwState, process_frame 4 (some (scenarioBuffer slice)) st =
        (⟨st.seq + 1,
          trySend 4 (CaptureEvent.Frame (mkFrame (scenarioBuffer slice) slice st.seq))
            st.queue⟩,
         some (mkFrame (scenarioBuffer slice) slice st.seq)) := by
      intro st
      refine process_frame_accepts 4 (scenarioBuffer slice) st slice rfl rfl ?_ ?_ ?_ ?_ ?_
      · show 7680 * 1080 ≠ 0
        norm_num
      · show (7680 : Nat) ≠ 0
        norm_num
      · show 7680 / 4 ≠ 0
        norm_num
      · show 7680 * 1080 / 7680 ≠ 0
        norm_num
      · show 0 + 7680 * 1080 ≤ slice.length
        rw [hlen]
    simp only [runBuffers, hacc]
    simp only [trySend, mkFrame, scenarioBuffer]
    norm_num

/-- Witness for C7: the dimension law at the tiny buffer, the rejection of a
width-zero buffer (`stride 2 / 4 = 0`), and the scenario instantiated with an
all-zero slice of length `7680 * 1080`. -/
theorem c7_witness :
    (tinyFrame.width = tinyBuffer.stride / 4 ∧
      tinyFrame.height = tinyBuffer.size / tinyBuffer.stride) ∧
    process_frame 4 (some thinBuffer) ⟨0, []⟩ = (⟨0, []⟩, none) ∧
    ((runBuffers 4 [some (scenarioBuffer (List.replicate (7680 * 1080) 0)),
        some (scenarioBuffer (List.replicate (7680 * 1080) 0)),
        some (scenarioBuffer (List.replicate (7680 * 1080) 0))] ⟨0, []⟩).2).map
      (fun f => (f.width, f.height, f.sequence)) =
    [(1920, 1080, 0), (1920, 1080, 1), (1920, 1080, 2)] := by
  obtain ⟨h1, h2, h3⟩ := c7_derived_dimensions
  exact ⟨h1 4 tinyBuffer ⟨0, []⟩ tinyFrame (by decide),
         h2 4 thinBuffer ⟨0, []⟩ (Or.inl (by decide)),
         h3 (List.replicate (7680 * 1080) 0) (List.length_replicate _ _)⟩

/-- Generalized sequence bookkeeping for a run: starting from any shared
state, the constructed frames carry the consecutive sequence numbers
`st.seq, st.seq + 1, ...`, and the final counter equals the start value plus
the number of constructed frames. -/
theorem runBuffers_sequences (cap : Nat) (bufs : List (Option PwBuffer)) (st : PwState) :
    ((runBuffers cap bufs st).2).map (fun f => f.sequence) =
      List.range' st.seq ((runBuffers cap bufs st).2).length ∧
    (runBuffers cap bufs st).1.seq = st.seq + ((runBuffers cap bufs st).2).length := by
  induction bufs generalizing st with
  | nil => simp [runBuffers]
  | cons b rest ih =>
    rcases process_frame_shape cap b st with hL |
      ⟨bb, slice, _, _, _, _, _, _, _, _, heq⟩
    · simp only [runBuffers, hL]
      simpa using ih st
    · simp only [runBuffers, heq]
      obtain ⟨ih1, ih2⟩ :=
        ih ⟨st.seq + 1, trySend cap (CaptureEvent.Frame (mkFrame bb slice st.seq)) st.queue⟩
      constructor
      · simp only [Option.toList_some, List.singleton_append, List.map_cons, ih1,
          List.length_cons]
        rfl
      · simp only [Option.toList_some, List.singleton_append, List.length_cons, ih2]
        omega

/-- Claim C8: within a single capture session (a run started at `seq = 0`),
the sequence numbers of the constructed frames are exactly `0, 1, 2, ...` in
construction order — strictly increasing, pairwise distinct, starting from
0 — and the final counter value equals the number of constructed frames, so
every constructed frame advanced the counter exactly once. -/
theorem c8_sequences_strictly_increasing (cap : Nat) (bufs : List (Option PwBuffer)) :
    ((runBuffers cap bufs ⟨0, []⟩).2).map (fun f => f.sequence) =
      List.range ((runBuffers cap bufs ⟨0, []⟩).2).length ∧
    ((runBuffers cap bufs ⟨0, []⟩).2).Pairwise (fun f g => f.sequence < g.sequence) ∧
    (((runBuffers cap bufs ⟨0, []⟩).2).map (fun f => f.sequence)).Nodup ∧
    (runBuffers cap bufs ⟨0, []⟩).1.seq = ((runBuffers cap bufs ⟨0, []⟩).2).length := by
  obtain ⟨h1, h2⟩ := runBuffers_sequences cap bufs ⟨0, []⟩
  have hr : ((runBuffers cap bufs ⟨0, []⟩).2).map (fun f => f.sequence) =
      List.range ((runBuffers cap bufs ⟨0, []⟩).2).length := by
    rw [h1, List.range_eq_range']
  refine ⟨hr, ?_, ?_, by simpa using h2⟩
  · have hp : (((runBuffers cap bufs ⟨0, []⟩).2).map (fun f => f.sequence)).Pairwise (· < ·) := by
      rw [hr]
      exact List.pairwise_lt_range _
    exact (List.pairwise_map.mp hp)
  · rw [hr]
    exact List.nodup_range _

/-- Claim C2: a failure of the session-start call maps to
`PortalError::Start` and a user cancellation maps to `PortalError::Response`;
these are distinct constructors, and conversely each of the two errors can
only arise from its own cause, so a caller can tell from the returned error
alone which one happened. -/
theorem c2_start_vs_cancel_distinguishable :
    (∀ (env : PortalEnv) (e : AshpdError), env.create = .ok () →
      env.create_session = .ok () → env.select_sources = .ok () →
      env.start = .error e →
      start_screencast env = .error (.Start e)) ∧
    (∀ env : PortalEnv, env.create = .ok () → env.create_session = .ok () →
      env.select_sources = .ok () → env.start = .ok () →
      env.response = .error .cancelled →
      start_screencast env = .error (.Response .cancelled)) ∧
    (∀ (env : PortalEnv) (e : AshpdError),
      start_screencast env = .error (.Start e) → env.start = .error e) ∧
    (∀ (env : PortalEnv) (e : AshpdError),
      start_screencast env = .error (.Response e) → env.response = .error e) ∧
    (∀ e e2 : AshpdError, PortalError.Start e ≠ PortalError.Response e2) := by
  refine ⟨?_, ?_, ?_, ?_, ?_⟩
  · intro env e h1 h2 h3 h4
    simp [start_screencast, h1, h2, h3, h4]
  · intro env h1 h2 h3 h4 h5
    simp [start_screencast, h1, h2, h3, h4, h5]
  · intro env e h
    simp only [start_screencast] at h
    split at h
    · simp at h
    · split at h
      · simp at h
      · split at h
        · simp at h
        · split at h
          · simp only [Except.error.injEq, PortalError.Start.injEq] at h
            subst h
            assumption
          · split at h
            · simp at h
            · split at h
              · simp at h
              · split at h
                · simp at h
                · simp at h
  · intro env e h
    simp only [start_screencast] at h
    split at h
    · simp at h
    · split at h
      · simp at h
      · split at h
        · simp at h
        · split at h
          · simp at h
          · split at h
            · simp only [Except.error.injEq, PortalError.Response.injEq] at h
              subst h
              assumption
            · split at h
              · simp at h
              · split at h
                · simp at h
                · simp at h
  · intro e e2 h
    exact PortalError.noConfusion h

/-- Witness for C2 at concrete environments: a failing start call and a user
cancellation produce the two distinct errors. -/
theorem c2_witness :
    start_screencast envStartCallFail = .error (.Start (.other 3)) ∧
    start_screencast envUserCancel = .error (.Response .cancelled) ∧
    PortalError.Start (.other 3) ≠ PortalError.Response .cancelled := by
  obtain ⟨h1, h2, _, _, h5⟩ := c2_start_vs_cancel_distinguishable
  exact ⟨h1 envStartCallFail (.other 3) rfl rfl rfl rfl,
         h2 envUserCancel rfl rfl rfl rfl rfl,
         h5 (.other 3) .cancelled⟩

/-- Counterexample to claim C1 as stated: with event-loop (`MainLoop`)
creation failing and the thread spawn succeeding, `PwStream::start` still
returns a successful (handle, receiver) pair — the value `.ok []` — and not
the named error `PwError.MainLoop`.  The init failure is only logged on the
capture thread. -/
theorem c1_counterexample :
    envMainLoopFail.mainLoopOk = false ∧
    PwStream.start (.ok ()) envMainLoopFail 4 [] = .ok [] ∧
    PwStream.start (.ok ()) envMainLoopFail 4 [] ≠ .error PwError.MainLoop := by
  refine ⟨rfl, rfl, ?_⟩
  intro h
  exact Except.noConfusion h

/-- Claim C1 (amended): each failing initialization step inside the loop is
terminal — the capture-thread body `run_pipewire_loop` returns the distinct
named error for that step and the receiver never yields an event — but
`PwStream::start` itself still returns a successful (handle, receiver) pair
whenever the thread spawn succeeds; only a spawn failure makes `start` return
an error (`SpawnThread`). -/
theorem c1_startup_errors (env : PwEnv) (cap : Nat) (bufs : List (Option PwBuffer))
    (spawnErr : Nat) :
    (env.mainLoopOk = false → run_pipewire_loop env cap bufs = .error .MainLoop) ∧
    (env.mainLoopOk = true → env.contextOk = false →
      run_pipewire_loop env cap bufs = .error .Context) ∧
    (env.mainLoopOk = true → env.contextOk = true → env.connectFdOk = false →
      run_pipewire_loop env cap bufs = .error .ConnectFd) ∧
    (env.mainLoopOk = true → env.contextOk = true → env.connectFdOk = true →
      env.createStreamOk = false →
      run_pipewire_loop env cap bufs = .error .CreateStream) ∧
    (env.mainLoopOk = true → env.contextOk = true → env.connectFdOk = true →
      env.createStreamOk = true → env.registerListenerOk = false →
      run_pipewire_loop env cap bufs = .error .RegisterListener) ∧
    (env.mainLoopOk = true → env.contextOk = true → env.connectFdOk = true →
      env.createStreamOk = true → env.registerListenerOk = true →
      env.streamConnectOk = false →
      run_pipewire_loop env cap bufs = .error .StreamConnect) ∧
    (∀ e, run_pipewire_loop env cap bufs = .error e →
      PwStream.start (.ok ()) env cap bufs = .ok []) ∧
    PwStream.start (.error spawnErr) env cap bufs = .error (.SpawnThread spawnErr) := by
  refine ⟨fun h1 => by simp [run_pipewire_loop, h1],
    fun h1 h2 => by simp [run_pipewire_loop, h1, h2],
    fun h1 h2 h3 => by simp [run_pipewire_loop, h1, h2, h3],
    fun h1 h2 h3 h4 => by simp [run_pipewire_loop, h1, h2, h3, h4],
    fun h1 h2 h3 h4 h5 => by simp [run_pipewire_loop, h1, h2, h3, h4, h5],
    fun h1 h2 h3 h4 h5 h6 => by simp [run_pipewire_loop, h1, h2, h3, h4, h5, h6],
    fun e he => by simp [PwStream.start, he],
    rfl⟩

/-- Witness for C1 (amended) at the context-failure environment. -/
theorem c1_witness :
    run_pipewire_loop envContextFail 4 [] = .error .Context ∧
    PwStream.start (.ok ()) envContextFail 4 [] = .ok [] ∧
    PwStream.start (.error 5) envContextFail 4 [] = .error (.SpawnThread 5) := by
  obtain ⟨_, h2, _, _, _, _, h7, h8⟩ := c1_startup_errors envContextFail 4 [] 5
  exact ⟨h2 rfl rfl, h7 PwError.Context (h2 rfl rfl), h8⟩

end Rdp
